import Mathlib

/-!
# TreeClassification (Ranger / grf): prediction storage and flat tree arrays

Shallow embedding of `src/Tree/TreeClassification.h`.

The header defines one member function with a body, `reservePredictionMemory`,
and declares the others.  The state it works on is the part of the base class
`Tree` that the header names: the three node arrays handed to the
"Create from loaded forest" constructor, the two pointers stored by the class
itself, and `predictions`.  The member `predictions` is declared in `Tree.h`;
the two statements of `reservePredictionMemory` (a `push_back` of a
`std::vector<double>` and a `resize` of element 0) fix its type as
`std::vector<std::vector<double>>`.

`double` values are only stored, copied and filled with the literal `0` here, so
the element type is a parameter `α` carrying a zero; no floating point
arithmetic is modelled.
-/

set_option autoImplicit false

namespace Ranger

/-! ## Data model -/

/-- State of a `TreeClassification` object: the node arrays of the base class
(`child_nodeIDs`, `split_varIDs`, `split_values`), the prediction storage
`predictions`, and the two members declared in the header (`class_values`,
`response_classIDs`), which are pointers to containers shared by the forest. -/
structure TreeClassification (α : Type) where
  child_nodeIDs : List (List Nat)
  split_varIDs : List Nat
  split_values : List α
  predictions : List (List α)
  class_values : List α
  response_classIDs : List Nat
deriving DecidableEq, Repr

namespace TreeClassification

variable {α : Type}

/-- The call `v.push_back(x)` of `std::vector`. -/
def push_back (v : List α) (x : α) : List α :=
  v ++ [x]

/-- The call `v.resize(n, value)` of `std::vector`: a vector longer than `n`
is cut down to its first `n` elements, a shorter one is extended with copies of
`value`.  Elements that stay keep their content. -/
def resize (v : List α) (n : Nat) (value : α) : List α :=
  if n ≤ v.length then v.take n else v ++ List.replicate (n - v.length) value

/-- Member function `reservePredictionMemory(num_predictions)`:
```
predictions.push_back(std::vector<double>());
predictions[0].resize(num_predictions, 0);
```
The access `predictions[0]` is checked: the result is `none` when row 0 does
not exist at that point. -/
def reservePredictionMemory [Zero α] (num_predictions : Nat) (t : TreeClassification α) : Option (TreeClassification α) :=
  let predictions := push_back t.predictions []
  match predictions[0]? with
  | none => none
  | some row0 => some { t with predictions := predictions.set 0 (resize row0 num_predictions 0) }

/-- A sequence of calls `reservePredictionMemory(n)`, one for each `n` of the
list, in order; `none` as soon as one call fails. -/
def reservePredictionMemoryCalls [Zero α] : List Nat → TreeClassification α → Option (TreeClassification α)
  | [], t => some t
  | n :: ns, t => (reservePredictionMemory n t).bind (reservePredictionMemoryCalls ns)

/-- Row 0 of `predictions`, the empty row when there is none. -/
def row0 (t : TreeClassification α) : List α :=
  t.predictions.headD []

/-! ## Members declared in the header whose bodies are not in the header

`TreeClassification.h` declares the two constructors, `createEmptyNodeInternal`,
`findBestSplit`, `splitNodeInternal` and `appendToFileInternal`; their bodies are
in `TreeClassification.cpp` and `Tree.cpp`.  The definitions below follow the
specification, section by section.  The member `estimate` is declared too, but
not `const`, and the specification does not say whether it changes the tally it
reads, so it is not modelled.  Whatever the builder reads from
the training data (stopping rule, result of the split search, majority class of a
node) is a parameter. -/

/-- Modelled from the spec: the value that marks a missing child in
`childNodeIDs` (§3: "both `0` (or a reserved sentinel) for leaves"); its
declaration is not in the header. -/
def leafSentinel : Nat := 0

/-- Modelled from the spec: what the builder obtains from the data container
and the ensemble (§6), as far as the node arrays depend on it.  `stop nodeID`
says whether the stopping rule of §4.1 fires at the node, `bestSplit nodeID
candidates` is the (variable, value) pair the split search of §4.2 selects, if
any, and `majorityClass nodeID` the majority class of the samples routed to the
node. -/
structure Collaborators (α : Type) where
  stop : Nat → Bool
  bestSplit : Nat → List Nat → Option (Nat × α)
  majorityClass : Nat → α

/-- Modelled from the spec: the body of the constructor
`TreeClassification(class_values, response_classIDs)` is missing.  §3, lifecycle
(a): the tree is "constructed fresh ... then grown node-by-node", so it starts
without nodes and without predictions. -/
def fresh (class_values : List α) (response_classIDs : List Nat) : TreeClassification α :=
  { child_nodeIDs := [], split_varIDs := [], split_values := [], predictions := [],
    class_values := class_values, response_classIDs := response_classIDs }

/-- Modelled from the spec: the body of `createEmptyNodeInternal` is missing.
§4.1: it "appends a node record with sentinel children; the node's `splitValues`
entry is set to the majority class ... of samples routed there".  The new node
gets the next nodeID; its `splitVarIDs` entry ("meaningless for leaves") is 0. -/
def createEmptyNodeInternal (d : Collaborators α) (t : TreeClassification α) :
    TreeClassification α :=
  { t with
    child_nodeIDs := push_back t.child_nodeIDs [leafSentinel, leafSentinel]
    split_varIDs := push_back t.split_varIDs 0
    split_values := push_back t.split_values (d.majorityClass t.child_nodeIDs.length) }

/-- Modelled from the spec: the body of `findBestSplit` is missing.  §4.2:
`findBestSplit(nodeID, candidateVarIDs) -> bool`, "true iff a usable split was
installed into `splitVarIDs`/`splitValues` for that node"; the header comment
says "Sets split_varIDs and split_values".  The entries of an existing node are
overwritten in place; a `nodeID` outside the arrays gives `none`. -/
def findBestSplit (d : Collaborators α) (nodeID : Nat) (possible_split_varIDs : List Nat)
    (t : TreeClassification α) : Option (Bool × TreeClassification α) :=
  if nodeID < t.split_varIDs.length ∧ nodeID < t.split_values.length then
    match d.bestSplit nodeID possible_split_varIDs with
    | none => some (false, t)
    | some (varID, value) =>
      some (true, { t with
        split_varIDs := t.split_varIDs.set nodeID varID
        split_values := t.split_values.set nodeID value })
  else none

/-- Modelled from the spec: the body of `splitNodeInternal` is missing.  §4.1:
when the stopping rule fires, or the split finder installs no split, the node
stays a leaf; "on success, append two child node records (recording their IDs in
`childNodeIDs` for this node)".  The spec does not say what the returned flag
means; here it is the flag of `findBestSplit` (a split was made).  A `nodeID`
outside the arrays gives `none`. -/
def splitNodeInternal (d : Collaborators α) (nodeID : Nat) (possible_split_varIDs : List Nat)
    (t : TreeClassification α) : Option (Bool × TreeClassification α) :=
  if nodeID < t.child_nodeIDs.length then
    if d.stop nodeID then some (false, t)
    else
      match findBestSplit d nodeID possible_split_varIDs t with
      | none => none
      | some (false, t1) => some (false, t1)
      | some (true, t1) =>
        let left := t1.child_nodeIDs.length
        let t2 := createEmptyNodeInternal d (createEmptyNodeInternal d t1)
        some (true, { t2 with child_nodeIDs := t2.child_nodeIDs.set nodeID [left, left + 1] })
  else none

/-- One call of a building operation, with its arguments. -/
inductive BuildOp where
  | createEmptyNodeInternal
  | findBestSplit (nodeID : Nat) (possible_split_varIDs : List Nat)
  | splitNodeInternal (nodeID : Nat) (possible_split_varIDs : List Nat)
deriving DecidableEq, Repr

/-- Effect of one building operation on the tree; the returned flag is dropped. -/
def applyOp (d : Collaborators α) (t : TreeClassification α) : BuildOp → Option (TreeClassification α)
  | .createEmptyNodeInternal => some (createEmptyNodeInternal d t)
  | .findBestSplit nodeID vars => (findBestSplit d nodeID vars t).map Prod.snd
  | .splitNodeInternal nodeID vars => (splitNodeInternal d nodeID vars t).map Prod.snd

/-- A sequence of building operations, applied in order; `none` as soon as one
of them has no defined result. -/
def build (d : Collaborators α) : List BuildOp → TreeClassification α → Option (TreeClassification α)
  | [], t => some t
  | op :: ops, t => (applyOp d t op).bind (build d ops)

/-- Modelled from the spec: one row of the persisted layout of §6, "per node in
increasing nodeID order: `[leftChildID, rightChildID, splitVarID, splitValue]`".
The fixed-width encoding of the four numbers is not modelled. -/
structure NodeRow (α : Type) where
  leftChildID : Nat
  rightChildID : Nat
  splitVarID : Nat
  splitValue : α
deriving DecidableEq, Repr

/-- Modelled from the spec: the body of `appendToFileInternal` is missing.
§4.5: it "writes `childNodeIDs`, `splitVarIDs`, `splitValues` verbatim, in nodeID
order", in the layout of §6.  The stream is the list of rows written so far. -/
def appendToFileInternal (t : TreeClassification α) (file : List (NodeRow α)) : List (NodeRow α) :=
  file ++ (t.child_nodeIDs.zip (t.split_varIDs.zip t.split_values)).map
    (fun (children, varID, value) =>
      { leftChildID := children.getD 0 leafSentinel
        rightChildID := children.getD 1 leafSentinel
        splitVarID := varID
        splitValue := value })

/-- Modelled from the spec: the reader of the layout of §6 (part of the forest
loader, not in the header): the `child_nodeIDs` argument of the reconstruction
constructor, one pair per row. -/
def loadedChildNodeIDs (file : List (NodeRow α)) : List (List Nat) :=
  file.map (fun row => [row.leftChildID, row.rightChildID])

/-- Modelled from the spec: as `loadedChildNodeIDs`, for `split_varIDs`. -/
def loadedSplitVarIDs (file : List (NodeRow α)) : List Nat :=
  file.map (fun row => row.splitVarID)

/-- Modelled from the spec: as `loadedChildNodeIDs`, for `split_values`. -/
def loadedSplitValues (file : List (NodeRow α)) : List α :=
  file.map (fun row => row.splitValue)

/-- Modelled from the spec: the "fatal load error" of §4.5 and §7, the way the
reconstruction constructor fails. -/
inductive LoadError where
  | arrayLengthMismatch
deriving DecidableEq, Repr

/-- Modelled from the spec: the body of the constructor "Create from loaded
forest" is missing.  §3, lifecycle (b): the tree is "reconstructed verbatim from
a previously serialized flat representation"; §4.5: "No reconstruction-time
validation beyond array-length consistency (§3 invariant) is required, but
violating that invariant is a fatal load error." -/
def fromLoadedForest (child_nodeIDs : List (List Nat)) (split_varIDs : List Nat)
    (split_values : List α) (class_values : List α) (response_classIDs : List Nat) :
    Except LoadError (TreeClassification α) :=
  if child_nodeIDs.length = split_varIDs.length ∧ split_varIDs.length = split_values.length then
    .ok { child_nodeIDs := child_nodeIDs, split_varIDs := split_varIDs,
          split_values := split_values, predictions := [],
          class_values := class_values, response_classIDs := response_classIDs }
  else .error .arrayLengthMismatch

/-- Modelled from the spec: the walk of §4.4 from a node down to a leaf, at most
`fuel` nodes long.  "At each internal node, evaluate the sample's value for
`splitVarIDs[nodeID]` against `splitValues[nodeID]` ... to choose left/right
child"; a node is a leaf iff both children equal the sentinel (§3).  The test
itself (less-than, or set membership) is the parameter `goesLeft`; `sample` gives
the sample's value for each variable. -/
def dropDown (goesLeft : α → α → Bool) (sample : Nat → α) (t : TreeClassification α) :
    Nat → Nat → Option Nat
  | 0, _ => none
  | fuel + 1, nodeID =>
    match t.child_nodeIDs[nodeID]? with
    | some [left, right] =>
      if left = leafSentinel ∧ right = leafSentinel then some nodeID
      else
        match t.split_varIDs[nodeID]?, t.split_values[nodeID]? with
        | some varID, some value =>
          dropDown goesLeft sample t fuel (if goesLeft (sample varID) value then left else right)
        | _, _ => none
    | _ => none

/-- Modelled from the spec: the prediction for a sample, the value stored at
the leaf the sample reaches from the root (§3: for leaves `splitValues` is
"overloaded to store the predicted value").  A walk visits each node at most
once, so as many steps as there are nodes are allowed. -/
def predict (goesLeft : α → α → Bool) (sample : Nat → α) (t : TreeClassification α) : Option α :=
  (dropDown goesLeft sample t t.child_nodeIDs.length 0).bind (fun leaf => t.split_values[leaf]?)

/-- The array-length invariant of §3: the three node arrays have one entry per
node. -/
structure Lengths (t : TreeClassification α) : Prop where
  len_var : t.child_nodeIDs.length = t.split_varIDs.length
  len_val : t.split_varIDs.length = t.split_values.length

/-- Shape of `child_nodeIDs` in a built tree: the entry of node `p` is a pair,
either of two sentinels (a leaf) or of the IDs of two existing nodes that both
come after `p`. -/
def Rows (t : TreeClassification α) : Prop :=
  ∀ (p : Nat) (row : List Nat), t.child_nodeIDs[p]? = some row →
    row = [leafSentinel, leafSentinel] ∨
      ∃ left right, row = [left, right] ∧ p < left ∧ left < t.child_nodeIDs.length ∧
        p < right ∧ right < t.child_nodeIDs.length

/-! ## Concrete inputs -/

/-- Collaborators of a small example: no stopping rule fires, the split search
finds the split (variable 3, value 7) at the root and nothing elsewhere, and the
majority class of every node is 1. -/
def exampleData : Collaborators Int :=
  { stop := fun _ => false
    bestSplit := fun nodeID _ => if nodeID = 0 then some (3, 7) else none
    majorityClass := fun _ => 1 }

/-- The building operations of the example: create the root, then split it. -/
def exampleOps : List BuildOp :=
  [.createEmptyNodeInternal, .splitNodeInternal 0 [3]]

/-- The tree the example builds: a root split on variable 3 at value 7, with
two leaves of class 1. -/
def exampleTree : TreeClassification Int :=
  { child_nodeIDs := [[1, 2], [0, 0], [0, 0]], split_varIDs := [3, 0, 0],
    split_values := [7, 1, 1], predictions := [], class_values := [], response_classIDs := [] }

/-- A tree whose prediction storage still holds the tally of an earlier
round: one row with the single entry 5. -/
def usedTree : TreeClassification Int :=
  { child_nodeIDs := [], split_varIDs := [], split_values := [],
    predictions := [[5]], class_values := [], response_classIDs := [] }

/-- A tree before its first prediction round: every container is empty. -/
def freshTree : TreeClassification Int :=
  { child_nodeIDs := [], split_varIDs := [], split_values := [],
    predictions := [], class_values := [], response_classIDs := [] }

/-! ## Theorems -/

/-! ### `reservePredictionMemory` -/

theorem length_resize (v : List α) (n : Nat) (value : α) : (resize v n value).length = n := by
  unfold resize
  split
  · rw [List.length_take]; omega
  · rw [List.length_append, List.length_replicate]; omega

theorem resize_eq_take_append (v : List α) (n : Nat) (value : α) :
    resize v n value = v.take n ++ List.replicate (n - v.length) value := by
  unfold resize
  split
  · next h => simp [Nat.sub_eq_zero_of_le h]
  · next h => rw [List.take_of_length_le (by omega)]

theorem resize_nil (n : Nat) (value : α) : resize [] n value = List.replicate n value := by
  simp [resize_eq_take_append]

theorem reserve_of_nil [Zero α] (t : TreeClassification α) (n : Nat) (h : t.predictions = []) :
    reservePredictionMemory n t = some { t with predictions := [List.replicate n 0] } := by
  simp [reservePredictionMemory, push_back, h, resize_nil]

theorem reserve_of_cons [Zero α] (t : TreeClassification α) (n : Nat) (r : List α) (rest : List (List α))
    (h : t.predictions = r :: rest) :
    reservePredictionMemory n t
      = some { t with predictions := resize r n 0 :: (rest ++ [[]]) } := by
  simp [reservePredictionMemory, push_back, h]

/-- Every call succeeds, and its effect on `predictions` in closed form: row 0
is resized, the other rows stay, and one empty row is added at the end (on an
empty container the added row is row 0 itself). -/
theorem reserve_succeeds [Zero α] (t : TreeClassification α) (n : Nat) :
    ∃ t', reservePredictionMemory n t = some t' ∧
      t'.predictions = resize (row0 t) n 0 :: (t.predictions.tail ++ List.replicate (min t.predictions.length 1) []) := by
  cases h : t.predictions with
  | nil => exact ⟨_, reserve_of_nil t n h, by simp [row0, h, resize_nil]⟩
  | cons r rest => exact ⟨_, reserve_of_cons t n r rest h, by simp [row0, h]⟩

theorem reserve_calls_of_cons [Zero α] (ns : List Nat) (t : TreeClassification α) (r : List α)
    (rest : List (List α)) (h : t.predictions = r :: rest) :
    ∃ t' r', reservePredictionMemoryCalls ns t = some t' ∧
      t'.predictions = r' :: (rest ++ List.replicate ns.length []) ∧
      r'.length = ns.getLastD r.length := by
  induction ns generalizing t r rest with
  | nil => exact ⟨t, r, rfl, by simp [h], by simp⟩
  | cons n ns ih =>
    obtain ⟨t2, r2, h2, hp2, hr2⟩ :=
      ih { t with predictions := resize r n 0 :: (rest ++ [[]]) } (resize r n 0) (rest ++ [[]]) rfl
    refine ⟨t2, r2, ?_, ?_, ?_⟩
    · simp [reservePredictionMemoryCalls, reserve_of_cons t n r rest h, h2]
    · rw [hp2]
      simp [List.replicate_succ]
    · rw [hr2, length_resize]
      cases ns <;> simp [List.getLastD]

theorem reserve_calls_of_nil [Zero α] (ns : List Nat) (t : TreeClassification α) (h : t.predictions = []) :
    ∃ t', reservePredictionMemoryCalls ns t = some t' ∧
      t'.predictions.length = ns.length ∧
      t'.predictions.tail = List.replicate (ns.length - 1) [] ∧
      (row0 t').length = ns.getLastD 0 := by
  cases ns with
  | nil => exact ⟨t, rfl, by simp [h], by simp [h], by simp [row0, h]⟩
  | cons n ns =>
    obtain ⟨t2, r2, h2, hp2, hr2⟩ :=
      reserve_calls_of_cons ns { t with predictions := [List.replicate n 0] }
        (List.replicate n 0) [] rfl
    refine ⟨t2, ?_, ?_, ?_, ?_⟩
    · simp [reservePredictionMemoryCalls, reserve_of_nil t n h, h2]
    · simp [hp2]
    · simp [hp2]
    · simp only [row0, hp2, List.headD_cons, hr2, List.length_replicate]
      cases ns <;> simp [List.getLastD]

/-! ### Building operations keep the shape of the node arrays -/

theorem findBestSplit_children (d : Collaborators α) (nodeID : Nat) (vars : List Nat)
    (t t' : TreeClassification α) (b : Bool)
    (hf : findBestSplit d nodeID vars t = some (b, t')) :
    t'.child_nodeIDs = t.child_nodeIDs ∧ t'.split_varIDs.length = t.split_varIDs.length ∧
      t'.split_values.length = t.split_values.length := by
  unfold findBestSplit at hf
  split at hf
  · split at hf
    · simp only [Option.some.injEq, Prod.mk.injEq] at hf
      obtain ⟨-, rfl⟩ := hf
      exact ⟨rfl, rfl, rfl⟩
    · simp only [Option.some.injEq, Prod.mk.injEq] at hf
      obtain ⟨-, rfl⟩ := hf
      exact ⟨rfl, by simp, by simp⟩
  · simp at hf

theorem lengths_createEmptyNodeInternal (d : Collaborators α) (t : TreeClassification α)
    (h : Lengths t) : Lengths (createEmptyNodeInternal d t) where
  len_var := by simp [createEmptyNodeInternal, push_back, h.len_var]
  len_val := by simp [createEmptyNodeInternal, push_back, h.len_val]

theorem lengths_findBestSplit (d : Collaborators α) (nodeID : Nat) (vars : List Nat)
    (t t' : TreeClassification α) (b : Bool) (h : Lengths t)
    (hf : findBestSplit d nodeID vars t = some (b, t')) : Lengths t' := by
  obtain ⟨hc, hv, hx⟩ := findBestSplit_children d nodeID vars t t' b hf
  exact { len_var := by rw [hc, hv]; exact h.len_var, len_val := by rw [hv, hx]; exact h.len_val }

theorem rows_createEmptyNodeInternal (d : Collaborators α) (t : TreeClassification α)
    (h : Rows t) : Rows (createEmptyNodeInternal d t) := by
  intro p row hrow
  simp only [createEmptyNodeInternal, push_back, List.length_append, List.length_singleton] at hrow ⊢
  by_cases hp : p < t.child_nodeIDs.length
  · rw [List.getElem?_append_left hp] at hrow
    rcases h p row hrow with h0 | ⟨left, right, e, h1, h2, h3, h4⟩
    · exact Or.inl h0
    · exact Or.inr ⟨left, right, e, h1, by omega, h3, by omega⟩
  · rw [List.getElem?_append_right (by omega)] at hrow
    left
    cases hk : p - t.child_nodeIDs.length with
    | zero =>
      rw [hk] at hrow
      simp only [List.getElem?_cons_zero, Option.some.injEq] at hrow
      exact hrow.symm
    | succ k =>
      rw [hk] at hrow
      simp at hrow

theorem rows_set_children (t : TreeClassification α) (nodeID left : Nat) (h : Rows t)
    (h1 : nodeID < left) (h2 : left + 1 < t.child_nodeIDs.length) :
    Rows { t with child_nodeIDs := t.child_nodeIDs.set nodeID [left, left + 1] } := by
  intro p row hrow
  simp only [List.length_set] at hrow ⊢
  by_cases hp : nodeID = p
  · subst hp
    rw [List.getElem?_set_self (by omega)] at hrow
    simp only [Option.some.injEq] at hrow
    exact Or.inr ⟨left, left + 1, hrow.symm, h1, by omega, by omega, h2⟩
  · rw [List.getElem?_set_ne hp] at hrow
    exact h p row hrow

/-- The two invariants are kept by `splitNodeInternal`. -/
theorem shape_splitNodeInternal (d : Collaborators α) (nodeID : Nat) (vars : List Nat)
    (t t' : TreeClassification α) (b : Bool)
    (hs : splitNodeInternal d nodeID vars t = some (b, t')) :
    (Lengths t → Lengths t') ∧ (Rows t → Rows t') := by
  unfold splitNodeInternal at hs
  split at hs
  · next hlt =>
    split at hs
    · simp only [Option.some.injEq, Prod.mk.injEq] at hs
      obtain ⟨-, rfl⟩ := hs
      exact ⟨id, id⟩
    · split at hs
      · simp at hs
      · next t1 hf =>
        simp only [Option.some.injEq, Prod.mk.injEq] at hs
        obtain ⟨-, rfl⟩ := hs
        refine ⟨fun h => lengths_findBestSplit d nodeID vars t _ false h hf, fun h => ?_⟩
        intro p row hrow
        rw [(findBestSplit_children d nodeID vars t _ false hf).1] at hrow ⊢
        exact h p row hrow
      · next t1 hf =>
        simp only [Option.some.injEq, Prod.mk.injEq] at hs
        obtain ⟨-, rfl⟩ := hs
        have hc := (findBestSplit_children d nodeID vars t t1 true hf).1
        constructor
        · intro h
          have h2 := lengths_createEmptyNodeInternal d _
            (lengths_createEmptyNodeInternal d t1 (lengths_findBestSplit d nodeID vars t t1 true h hf))
          exact { len_var := by simpa using h2.len_var, len_val := h2.len_val }
        · intro h
          have h1 : Rows t1 := by
            intro p row hrow
            rw [hc] at hrow ⊢
            exact h p row hrow
          have h2 := rows_createEmptyNodeInternal d _ (rows_createEmptyNodeInternal d t1 h1)
          refine rows_set_children _ nodeID _ h2 (by rw [hc]; exact hlt) ?_
          simp [createEmptyNodeInternal, push_back]
  · simp at hs

theorem shape_applyOp (d : Collaborators α) (op : BuildOp) (t t' : TreeClassification α)
    (ha : applyOp d t op = some t') : (Lengths t → Lengths t') ∧ (Rows t → Rows t') := by
  cases op with
  | createEmptyNodeInternal =>
    simp only [applyOp, Option.some.injEq] at ha
    subst ha
    exact ⟨lengths_createEmptyNodeInternal d t, rows_createEmptyNodeInternal d t⟩
  | findBestSplit nodeID vars =>
    cases hf : findBestSplit d nodeID vars t with
    | none => simp [applyOp, hf] at ha
    | some r =>
      obtain ⟨b, t1⟩ := r
      simp only [applyOp, hf, Option.map_some', Option.some.injEq] at ha
      subst ha
      refine ⟨fun h => lengths_findBestSplit d nodeID vars t t1 b h hf, fun h => ?_⟩
      intro p row hrow
      rw [(findBestSplit_children d nodeID vars t t1 b hf).1] at hrow ⊢
      exact h p row hrow
  | splitNodeInternal nodeID vars =>
    cases hf : splitNodeInternal d nodeID vars t with
    | none => simp [applyOp, hf] at ha
    | some r =>
      obtain ⟨b, t1⟩ := r
      simp only [applyOp, hf, Option.map_some', Option.some.injEq] at ha
      subst ha
      exact shape_splitNodeInternal d nodeID vars t t1 b hf

theorem shape_build (d : Collaborators α) (ops : List BuildOp) (t t' : TreeClassification α)
    (hb : build d ops t = some t') : (Lengths t → Lengths t') ∧ (Rows t → Rows t') := by
  induction ops generalizing t with
  | nil =>
    simp only [build, Option.some.injEq] at hb
    subst hb
    exact ⟨id, id⟩
  | cons op ops ih =>
    simp only [build, Option.bind_eq_some] at hb
    obtain ⟨t1, h1, h2⟩ := hb
    have s1 := shape_applyOp d op t t1 h1
    have s2 := ih t1 h2
    exact ⟨fun h => s2.1 (s1.1 h), fun h => s2.2 (s1.2 h)⟩

theorem lengths_fresh (cv : List α) (rc : List Nat) : Lengths (fresh cv rc) :=
  { len_var := rfl, len_val := rfl }

theorem rows_fresh (cv : List α) (rc : List Nat) : Rows (fresh cv rc) := by
  intro p row hrow
  simp [fresh] at hrow

theorem lengths_fromLoadedForest (c : List (List Nat)) (v : List Nat) (x cv : List α)
    (rc : List Nat) (t : TreeClassification α) (h : fromLoadedForest c v x cv rc = .ok t) :
    Lengths t := by
  unfold fromLoadedForest at h
  split at h
  · next hl =>
    simp only [Except.ok.injEq] at h
    subst h
    exact { len_var := hl.1, len_val := hl.2 }
  · simp at h

theorem rows_pair (t : TreeClassification α) (h : Rows t) :
    ∀ row ∈ t.child_nodeIDs, row.length = 2 := by
  intro row hrow
  obtain ⟨p, hp⟩ := List.mem_iff_getElem?.mp hrow
  rcases h p row hp with e | ⟨left, right, e, -⟩ <;> simp [e]

/-! ### The walk to a leaf ends -/

theorem dropDown_some (goesLeft : α → α → Bool) (sample : Nat → α) (t : TreeClassification α)
    (hl : Lengths t) (hr : Rows t) (fuel nodeID : Nat) (hn : nodeID < t.child_nodeIDs.length)
    (hf : t.child_nodeIDs.length - nodeID ≤ fuel) :
    ∃ leaf, dropDown goesLeft sample t fuel nodeID = some leaf ∧
      leaf < t.child_nodeIDs.length := by
  induction fuel generalizing nodeID with
  | zero => omega
  | succ fuel ih =>
    unfold dropDown
    have hrow : t.child_nodeIDs[nodeID]? = some t.child_nodeIDs[nodeID] :=
      List.getElem?_eq_getElem hn
    rcases hr nodeID _ hrow with e | ⟨left, right, e, h1, h2, h3, h4⟩
    · rw [hrow, e]
      exact ⟨nodeID, by simp, hn⟩
    · rw [hrow, e]
      have hv : nodeID < t.split_varIDs.length := by rw [← hl.len_var]; exact hn
      have hx : nodeID < t.split_values.length := by rw [← hl.len_val]; exact hv
      have hne : ¬ (left = leafSentinel ∧ right = leafSentinel) := by
        simp only [leafSentinel]; omega
      simp only [hne, if_false, List.getElem?_eq_getElem hv, List.getElem?_eq_getElem hx]
      split
      · exact ih left h2 (by omega)
      · exact ih right h4 (by omega)

theorem predict_some (goesLeft : α → α → Bool) (sample : Nat → α) (t : TreeClassification α)
    (hl : Lengths t) (hr : Rows t) (hn : 0 < t.child_nodeIDs.length) :
    ∃ y, predict goesLeft sample t = some y := by
  obtain ⟨leaf, h1, h2⟩ :=
    dropDown_some goesLeft sample t hl hr t.child_nodeIDs.length 0 hn (by omega)
  have hx : leaf < t.split_values.length := by rw [← hl.len_val, ← hl.len_var]; exact h2
  exact ⟨t.split_values[leaf], by simp [predict, h1, List.getElem?_eq_getElem hx]⟩

/-! ### Serialization -/

theorem written_rows (t : TreeClassification α) :
    appendToFileInternal t [] =
      (t.child_nodeIDs.zip (t.split_varIDs.zip t.split_values)).map
        (fun (row : List Nat × Nat × α) =>
          { leftChildID := row.1.getD 0 leafSentinel
            rightChildID := row.1.getD 1 leafSentinel
            splitVarID := row.2.1
            splitValue := row.2.2 }) := by
  simp [appendToFileInternal]

theorem pair_eq (row : List Nat) (h : row.length = 2) :
    [row.getD 0 leafSentinel, row.getD 1 leafSentinel] = row := by
  match row, h with
  | [a, b], _ => rfl

theorem loaded_of_lengths (c : List (List Nat)) (v : List Nat) (x : List α)
    (h1 : c.length = v.length) (h2 : v.length = x.length)
    (hp : ∀ row ∈ c, row.length = 2) :
    (c.zip (v.zip x)).map
        (fun (row : List Nat × Nat × α) => [row.1.getD 0 leafSentinel, row.1.getD 1 leafSentinel]) = c ∧
      (c.zip (v.zip x)).map (fun (row : List Nat × Nat × α) => row.2.1) = v ∧
      (c.zip (v.zip x)).map (fun (row : List Nat × Nat × α) => row.2.2) = x := by
  induction c generalizing v x with
  | nil =>
    cases v with
    | nil =>
      cases x with
      | nil => simp
      | cons _ _ => simp at h2
    | cons _ _ => simp at h1
  | cons r c ih =>
    cases v with
    | nil => simp at h1
    | cons w v =>
      cases x with
      | nil => simp at h2
      | cons y x =>
        simp only [List.length_cons, Nat.add_right_cancel_iff] at h1 h2
        obtain ⟨i1, i2, i3⟩ := ih v x h1 h2 (fun row hrow => hp row (List.mem_cons_of_mem _ hrow))
        simp only [List.zip_cons_cons, List.map_cons, i1, i2, i3,
          pair_eq r (hp r (List.mem_cons_self _ _)), and_self]

theorem loaded_of_shape (t : TreeClassification α) (h : Lengths t) (hr : Rows t) :
    loadedChildNodeIDs (appendToFileInternal t []) = t.child_nodeIDs ∧
      loadedSplitVarIDs (appendToFileInternal t []) = t.split_varIDs ∧
      loadedSplitValues (appendToFileInternal t []) = t.split_values := by
  have := loaded_of_lengths t.child_nodeIDs t.split_varIDs t.split_values h.len_var h.len_val
    (rows_pair t hr)
  simp only [loadedChildNodeIDs, loadedSplitVarIDs, loadedSplitValues, written_rows, List.map_map]
  exact this

theorem dropDown_congr (goesLeft : α → α → Bool) (sample : Nat → α)
    (t t' : TreeClassification α) (hc : t'.child_nodeIDs = t.child_nodeIDs)
    (hv : t'.split_varIDs = t.split_varIDs) (hx : t'.split_values = t.split_values)
    (fuel nodeID : Nat) :
    dropDown goesLeft sample t' fuel nodeID = dropDown goesLeft sample t fuel nodeID := by
  induction fuel generalizing nodeID with
  | zero => rfl
  | succ fuel ih =>
    unfold dropDown
    simp only [hc, hv, hx, ih]

theorem predict_congr (goesLeft : α → α → Bool) (sample : Nat → α)
    (t t' : TreeClassification α) (hc : t'.child_nodeIDs = t.child_nodeIDs)
    (hv : t'.split_varIDs = t.split_varIDs) (hx : t'.split_values = t.split_values) :
    predict goesLeft sample t' = predict goesLeft sample t := by
  unfold predict
  rw [dropDown_congr goesLeft sample t t' hc hv hx, hc, hx]

/-! ### Claims on `reservePredictionMemory` -/

/-- C1 (as stated, refuted): on a tree whose `predictions` holds one row with the
entry 5, `reservePredictionMemory(1)` succeeds and leaves row 0 equal to `[5]`, so
not every entry of `predictions[0]` is 0 afterwards. -/
theorem reserve_keeps_old_tally :
    (reservePredictionMemory 1 usedTree).map row0 = some [5] ∧
      ¬ ∀ t', reservePredictionMemory 1 usedTree = some t' → ∀ x ∈ row0 t', x = 0 := by
  refine ⟨by decide, fun h => ?_⟩
  have := h { usedTree with predictions := [[5], []] } (by decide) 5 (by simp [row0])
  exact absurd this (by decide)

/-- C1 (amended): for every prior state and every `n`, after
`reservePredictionMemory(n)` row 0 of `predictions` is the first `n` entries of
the prior row 0, unchanged, followed by `n - m` zeros, where `m` is the prior
length of row 0 (`0` when there was no row).  Only the entries added by the call
are 0. -/
theorem reserve_row0_eq [Zero α] (t : TreeClassification α) (n : Nat) :
    ∃ t', reservePredictionMemory n t = some t' ∧
      row0 t' = (row0 t).take n ++ List.replicate (n - (row0 t).length) 0 := by
  obtain ⟨t', h, hp⟩ := reserve_succeeds t n
  exact ⟨t', h, by simp [row0, hp, resize_eq_take_append]⟩

/-- C2: on a tree whose `predictions` is empty, `reservePredictionMemory(n)`
succeeds, changes nothing but `predictions`, and leaves `predictions` with exactly
one row, made of `n` zeros. -/
theorem reserve_fresh [Zero α] (t : TreeClassification α) (n : Nat) (h : t.predictions = []) :
    reservePredictionMemory n t = some { t with predictions := [List.replicate n 0] } :=
  reserve_of_nil t n h

/-- Witness for C2: the fresh tree, three predictions. -/
theorem reserve_fresh_witness :
    freshTree.predictions = [] ∧
      reservePredictionMemory 3 freshTree = some { freshTree with predictions := [[0, 0, 0]] } :=
  ⟨rfl, reserve_fresh freshTree 3 rfl⟩

/-- C9: for every prior state of `predictions` and every `n`, the access
`predictions[0]` made by `reservePredictionMemory(n)` is in range (the call
returns a state), and afterwards row 0 exists and has exactly `n` entries. -/
theorem reserve_in_range [Zero α] (t : TreeClassification α) (n : Nat) :
    (push_back t.predictions [])[0]? ≠ none ∧
      ∃ t', reservePredictionMemory n t = some t' ∧
        t'.predictions[0]?.map List.length = some n := by
  obtain ⟨t', h, hp⟩ := reserve_succeeds t n
  refine ⟨?_, t', h, by simp [hp, length_resize]⟩
  cases h0 : t.predictions <;> simp [push_back]

/-- C10: every call of `reservePredictionMemory` adds exactly one row to
`predictions`; after `k` calls (with any arguments) on a tree whose `predictions`
is empty there are `k` rows, every row after row 0 is empty, and row 0 has the
size given by the last call. -/
theorem reserve_adds_a_row [Zero α] (t : TreeClassification α) (ns : List Nat) (h : t.predictions = []) :
    (∀ (s : TreeClassification α) (n : Nat), ∃ s', reservePredictionMemory n s = some s' ∧
        s'.predictions.length = s.predictions.length + 1) ∧
      ∃ t', reservePredictionMemoryCalls ns t = some t' ∧
        t'.predictions.length = ns.length ∧
        t'.predictions.tail = List.replicate (ns.length - 1) [] ∧
        (row0 t').length = ns.getLastD 0 := by
  constructor
  · intro s n
    obtain ⟨s', hs, hp⟩ := reserve_succeeds s n
    refine ⟨s', hs, ?_⟩
    rw [hp]
    cases s.predictions <;> simp
  · exact reserve_calls_of_nil ns t h

/-- Witness for C10: three calls, with arguments 2, 0 and 4, on the fresh tree. -/
theorem reserve_adds_a_row_witness :
    freshTree.predictions = [] ∧
      reservePredictionMemoryCalls [2, 0, 4] freshTree
        = some { freshTree with predictions := [[0, 0, 0, 0], [], []] } ∧
      ∃ t', reservePredictionMemoryCalls [2, 0, 4] freshTree = some t' ∧
        t'.predictions.length = 3 ∧ t'.predictions.tail = [[], []] ∧ (row0 t').length = 4 :=
  ⟨rfl, by decide, (reserve_adds_a_row freshTree [2, 0, 4] rfl).2⟩

/-! ### Claims on the members modelled from the specification -/

/-- C3: for every built tree, the arrays read back from what
`appendToFileInternal` wrote are accepted by the reconstruction constructor; the
reconstructed tree has the same `child_nodeIDs`, `split_varIDs` and
`split_values`, entry for entry, and gives the same prediction for every sample
(a prediction that exists as soon as the tree has a root). -/
theorem serialize_roundtrip (d : Collaborators α) (ops : List BuildOp) (cv : List α)
    (rc : List Nat) (t : TreeClassification α) (h : build d ops (fresh cv rc) = some t)
    (class_values : List α) (response_classIDs : List Nat) :
    ∃ t', fromLoadedForest (loadedChildNodeIDs (appendToFileInternal t []))
          (loadedSplitVarIDs (appendToFileInternal t []))
          (loadedSplitValues (appendToFileInternal t [])) class_values response_classIDs = .ok t' ∧
      t'.child_nodeIDs = t.child_nodeIDs ∧ t'.split_varIDs = t.split_varIDs ∧
      t'.split_values = t.split_values ∧
      ∀ (goesLeft : α → α → Bool) (sample : Nat → α),
        predict goesLeft sample t' = predict goesLeft sample t ∧
        (0 < t.child_nodeIDs.length → ∃ y, predict goesLeft sample t = some y) := by
  have hs := shape_build d ops _ t h
  have hl := hs.1 (lengths_fresh cv rc)
  have hr := hs.2 (rows_fresh cv rc)
  obtain ⟨e1, e2, e3⟩ := loaded_of_shape t hl hr
  rw [e1, e2, e3]
  refine ⟨_, if_pos ⟨hl.len_var, hl.len_val⟩, rfl, rfl, rfl, ?_⟩
  intro goesLeft sample
  exact ⟨predict_congr goesLeft sample t _ rfl rfl rfl, predict_some goesLeft sample t hl hr⟩

/-- Witness for C3: the example tree is built, written, read back and
reconstructed; a sample whose values are all 5 goes left at the root (5 < 7)
and gets the class of node 1. -/
theorem serialize_roundtrip_witness :
    build exampleData exampleOps (fresh [] []) = some exampleTree ∧
      appendToFileInternal exampleTree [] = [⟨1, 2, 3, 7⟩, ⟨0, 0, 0, 1⟩, ⟨0, 0, 0, 1⟩] ∧
      dropDown (fun a b => decide (a < b)) (fun _ => 5) exampleTree 3 0 = some 1 ∧
      predict (fun a b => decide (a < b)) (fun _ => 5) exampleTree = some 1 ∧
      ∃ t', fromLoadedForest (loadedChildNodeIDs (appendToFileInternal exampleTree []))
            (loadedSplitVarIDs (appendToFileInternal exampleTree []))
            (loadedSplitValues (appendToFileInternal exampleTree [])) [] [] = .ok t' ∧
        t'.child_nodeIDs = exampleTree.child_nodeIDs ∧
        t'.split_varIDs = exampleTree.split_varIDs ∧
        t'.split_values = exampleTree.split_values ∧
        ∀ (goesLeft : Int → Int → Bool) (sample : Nat → Int),
          predict goesLeft sample t' = predict goesLeft sample exampleTree ∧
          (0 < exampleTree.child_nodeIDs.length →
            ∃ y, predict goesLeft sample exampleTree = some y) :=
  ⟨by decide, by decide, by decide, by decide,
    serialize_roundtrip exampleData exampleOps [] [] exampleTree (by decide) [] []⟩

/-- C4: in every state reached from a constructed tree (fresh, or accepted by
the reconstruction constructor) by any sequence of `createEmptyNodeInternal`,
`findBestSplit` and `splitNodeInternal`, the three node arrays have the same
length. -/
theorem build_lengths (d : Collaborators α) (ops : List BuildOp)
    (child_nodeIDs : List (List Nat)) (split_varIDs : List Nat) (split_values cv : List α)
    (rc : List Nat) (t0 t : TreeClassification α)
    (h0 : t0 = fresh cv rc ∨
      fromLoadedForest child_nodeIDs split_varIDs split_values cv rc = .ok t0)
    (h : build d ops t0 = some t) :
    t.child_nodeIDs.length = t.split_varIDs.length ∧
      t.split_varIDs.length = t.split_values.length := by
  have hl0 : Lengths t0 := by
    rcases h0 with rfl | h0
    · exact lengths_fresh cv rc
    · exact lengths_fromLoadedForest _ _ _ _ _ t0 h0
  have hl := (shape_build d ops t0 t h).1 hl0
  exact ⟨hl.len_var, hl.len_val⟩

/-- Witness for C4: the example tree, three nodes in each array. -/
theorem build_lengths_witness :
    build exampleData exampleOps (fresh [] []) = some exampleTree ∧
      exampleTree.child_nodeIDs.length = 3 ∧
      exampleTree.child_nodeIDs.length = exampleTree.split_varIDs.length ∧
      exampleTree.split_varIDs.length = exampleTree.split_values.length :=
  ⟨by decide, rfl,
    build_lengths exampleData exampleOps [] [] [] [] [] (fresh [] []) exampleTree (Or.inl rfl)
      (by decide)⟩

/-- C6: when the loaded arrays do not all have the same length, the
reconstruction constructor fails with a load error and returns no tree. -/
theorem load_length_mismatch (child_nodeIDs : List (List Nat)) (split_varIDs : List Nat)
    (split_values class_values : List α) (response_classIDs : List Nat)
    (h : ¬ (child_nodeIDs.length = split_varIDs.length ∧
      split_varIDs.length = split_values.length)) :
    fromLoadedForest child_nodeIDs split_varIDs split_values class_values response_classIDs
        = .error .arrayLengthMismatch ∧
      ∀ t, fromLoadedForest child_nodeIDs split_varIDs split_values class_values
        response_classIDs ≠ .ok t := by
  have e : fromLoadedForest child_nodeIDs split_varIDs split_values class_values
      response_classIDs = .error .arrayLengthMismatch := if_neg h
  refine ⟨e, fun t ht => ?_⟩
  rw [e] at ht
  cases ht

/-- Witness for C6: two rows of child IDs, one split variable, one split value. -/
theorem load_length_mismatch_witness :
    ¬ (([[1, 2], [0, 0]] : List (List Nat)).length = ([3] : List Nat).length ∧
        ([3] : List Nat).length = ([7] : List Int).length) ∧
      fromLoadedForest [[1, 2], [0, 0]] [3] [(7 : Int)] [] [] = .error .arrayLengthMismatch ∧
      ∀ t, fromLoadedForest [[1, 2], [0, 0]] [3] [(7 : Int)] [] [] ≠ .ok t :=
  ⟨by decide, load_length_mismatch [[1, 2], [0, 0]] [3] [(7 : Int)] [] [] (by decide)⟩

/-- C8: in every built tree, every entry of `child_nodeIDs[p]` is the leaf
sentinel or the ID of an existing node greater than `p`. -/
theorem build_child_ids (d : Collaborators α) (ops : List BuildOp) (cv : List α)
    (rc : List Nat) (t : TreeClassification α) (h : build d ops (fresh cv rc) = some t)
    (p : Nat) (row : List Nat) (hrow : t.child_nodeIDs[p]? = some row) (c : Nat) (hc : c ∈ row) :
    c = leafSentinel ∨ (p < c ∧ c < t.child_nodeIDs.length) := by
  have hr := (shape_build d ops _ t h).2 (rows_fresh cv rc)
  rcases hr p row hrow with e | ⟨left, right, e, h1, h2, h3, h4⟩
  · subst e
    exact Or.inl (by simpa using hc)
  · subst e
    simp only [List.mem_cons, List.mem_singleton, List.not_mem_nil, or_false] at hc
    rcases hc with rfl | rfl
    · exact Or.inr ⟨h1, h2⟩
    · exact Or.inr ⟨h3, h4⟩

/-- Witness for C8: the right child of the root of the example tree is node 2,
greater than 0 and less than the number of nodes, 3. -/
theorem build_child_ids_witness :
    build exampleData exampleOps (fresh [] []) = some exampleTree ∧
      exampleTree.child_nodeIDs[0]? = some [1, 2] ∧ 2 ∈ [1, 2] ∧
      (2 = leafSentinel ∨ (0 < 2 ∧ 2 < exampleTree.child_nodeIDs.length)) :=
  ⟨by decide, rfl, by decide,
    build_child_ids exampleData exampleOps [] [] exampleTree (by decide) 0 [1, 2] rfl 2
      (by decide)⟩

end TreeClassification

end Ranger
